import Mathlib

/-!
Verification development for the Media Foundation video encoder/decoder pair
(`VideoDecoder.cpp`/`VideoDecoder.h`, `VideoEncoder.cpp`/`VideoEncoder.h`).

Byte buffers are modelled as `List Nat` whose elements are byte values
(theorems about length-field arithmetic carry `< 256` hypotheses where the
byte range matters).  A possibly-null C pointer/size pair is modelled as an
`Option (List Nat)` holding exactly the `size` readable bytes.  The opaque
Media Foundation transform is modelled by explicit event lists: each call to
`ProcessOutput` consumes one event (an output sample, a stream change, a
need-more-input signal, or another error), and `ProcessInput` outcomes are
supplied as explicit oracle values.

The C code assembles big-endian length fields as ors of shifted bytes, e.g.
`(b0 << 24) | (b1 << 16) | (b2 << 8) | b3`; on byte values the shifted fields
occupy disjoint bit ranges, so this equals
`b0 * 16777216 + b1 * 65536 + b2 * 256 + b3`, which is the form used in the
definitions below (see `shiftOrBytes_eq` and `shiftOrBytes16_eq`).
-/

/-- Does the byte list begin with the 4-byte Annex-B start code 00 00 00 01? -/
def startsWithStartCode (l : List Nat) : Bool :=
  match l with
  | b0 :: b1 :: b2 :: b3 :: _ => b0 == 0 && b1 == 0 && b2 == 0 && b3 == 1
  | _ => false

/-- Does the byte list contain the 4-byte start code as a contiguous substring? -/
def hasStartCode : List Nat → Bool
  | [] => false
  | b :: rest => startsWithStartCode (b :: rest) || hasStartCode rest

/-- Modelled from the spec: re-scanning an Annex-B stream for 4-byte start
codes.  `cur` is the payload accumulated since the last start code, `acc` the
finished payloads.  Every occurrence of 00 00 00 01 begins a new NAL unit. -/
def scanUnits (l : List Nat) (cur : List Nat) (acc : List (List Nat)) : List (List Nat) :=
  if h : startsWithStartCode l then
    scanUnits (l.drop 4) [] (acc ++ [cur])
  else
    match l with
    | [] => acc ++ [cur]
    | b :: rest => scanUnits rest (cur ++ [b]) acc
termination_by l.length
decreasing_by
  · cases l with
    | nil => simp [startsWithStartCode] at h
    | cons x xs =>
        cases xs with
        | nil => simp [startsWithStartCode] at h
        | cons y ys =>
            cases ys with
            | nil => simp [startsWithStartCode] at h
            | cons z zs =>
                cases zs with
                | nil => simp [startsWithStartCode] at h
                | cons w ws => simp; omega
  · simp

/-- Modelled from the spec: the payload sequence recovered by scanning a
buffer that begins with a 4-byte start code; `[]` if it does not begin so. -/
def scanUnitsTop (l : List Nat) : List (List Nat) :=
  if startsWithStartCode l then scanUnits (l.drop 4) [] [] else []

/-- Big-endian 4-byte encoding of a 32-bit value (spec-side helper used to
describe well-formed AVCC buffers). -/
def be32 (n : Nat) : List Nat :=
  [n / 16777216 % 256, n / 65536 % 256, n / 256 % 256, n % 256]

/-- Modelled from the spec: a well-formed AVCC buffer is the concatenation of
4-byte big-endian length fields, each followed by that many payload bytes. -/
def avccEncode : List (List Nat) → List Nat
  | [] => []
  | p :: ps => be32 p.length ++ p ++ avccEncode ps

/-- Modelled from the spec: the Annex-B rendering of a payload sequence, one
4-byte start code before every payload. -/
def annexBEncode : List (List Nat) → List Nat
  | [] => []
  | p :: ps => 0 :: 0 :: 0 :: 1 :: (p ++ annexBEncode ps)

/-- Modelled from the spec: direct AVCC-length parsing of a buffer into its
NAL payload sequence (stopping at the first invalid length field). -/
def avccParse (l : List Nat) : List (List Nat) :=
  match l with
  | b0 :: b1 :: b2 :: b3 :: rest =>
    let nalLength := b0 * 16777216 + b1 * 65536 + b2 * 256 + b3
    if nalLength = 0 ∨ rest.length < nalLength then []
    else rest.take nalLength :: avccParse (rest.drop nalLength)
  | _ => []
termination_by l.length
decreasing_by simp; omega

/-- The non-configuration conversion loop of `VideoDecoder::convertAvccToAnnexB`
(`VideoDecoder.cpp` lines 675-691): read a 4-byte big-endian length, stop if it
is zero or overruns the buffer, else emit a start code plus payload. -/
def convertLoop (l : List Nat) (acc : List Nat) : List Nat :=
  match l with
  | b0 :: b1 :: b2 :: b3 :: rest =>
    let nalLength := b0 * 16777216 + b1 * 65536 + b2 * 256 + b3
    if nalLength = 0 ∨ rest.length < nalLength then acc
    else convertLoop (rest.drop nalLength) (acc ++ (0 :: 0 :: 0 :: 1 :: rest.take nalLength))
  | _ => acc
termination_by l.length
decreasing_by simp; omega

/-- Shared loop of both codec-configuration paths of `convertAvccToAnnexB`:
read `count` records, each a 2-byte big-endian length followed by payload,
emitting each with a start code; a record that overruns the buffer stops the
loop (after its length field was consumed), as does running out of bytes.
Returns the remaining bytes and the accumulated output. -/
def readLengthPrefixed : Nat → List Nat → List Nat → List Nat × List Nat
  | 0, l, acc => (l, acc)
  | n + 1, a :: b :: rest, acc =>
    let len := a * 256 + b
    if rest.length < len then (rest, acc)
    else readLengthPrefixed n (rest.drop len) (acc ++ (0 :: 0 :: 0 :: 1 :: rest.take len))
  | _ + 1, l, acc => (l, acc)

/-- The HVCC array loop of `convertAvccToAnnexB` (lines 710-731): for each of
`count` arrays, skip the NAL-type byte, read a 2-byte NALU count, then read
that many length-prefixed NALUs; stop when fewer than 3 bytes remain. -/
def hevcArrays : Nat → List Nat → List Nat → List Nat
  | 0, _, acc => acc
  | n + 1, l, acc =>
    match l with
    | _ :: a :: b :: rest =>
      let numNalus := a * 256 + b
      let r := readLengthPrefixed numNalus rest acc
      hevcArrays n r.1 r.2
    | _ => acc

/-- `VideoDecoder::convertAvccToAnnexB` (lines 658-786).  The caller's output
vector is threaded explicitly: it is returned untouched on the early null/size
failure paths (and on the too-small configuration-record paths), and otherwise
replaced by the freshly built conversion result. -/
def convertAvccToAnnexB (avccData : Option (List Nat)) (isCodecConfig : Bool)
    (mime : String) (annexBData : List Nat) : Bool × List Nat :=
  match avccData with
  | none => (false, annexBData)
  | some data =>
    if data.length < 4 then (false, annexBData)
    else if isCodecConfig = false then
      let out := convertLoop data []
      (!out.isEmpty, out)
    else if mime = "video/hevc" ∨ mime = "video/h265" then
      if data.length < 23 then (false, annexBData)
      else
        let numArrays := data.getD 22 0
        let out := hevcArrays numArrays (data.drop 23) []
        (!out.isEmpty, out)
    else
      if data.length < 7 then (false, annexBData)
      else
        match data.drop 5 with
        | b5 :: rest =>
          let numSPS := b5 &&& 31
          let r := readLengthPrefixed numSPS rest []
          let out :=
            match r.1 with
            | [] => r.2
            | numPPS :: rest2 => (readLengthPrefixed numPPS rest2 r.2).2
          (!out.isEmpty, out)
        | [] => (false, annexBData)

/-- `VideoDecoder::isAvcc` (lines 788-836). -/
def isAvcc (dataOpt : Option (List Nat)) (isCodecConfig : Bool) : Bool :=
  match dataOpt with
  | none => false
  | some d =>
    match d with
    | b0 :: b1 :: b2 :: b3 :: rest =>
      if isCodecConfig then
        if b0 == 0 && b1 == 0 && b2 == 0 && b3 == 1 then false
        else if b0 == 0 && b1 == 0 && b2 == 1 then false
        else true
      else
        if b0 == 0 && b1 == 0 && b2 == 0 && b3 == 1 then false
        else if b0 == 0 && b1 == 0 && b2 == 1 then
          let possibleLength := b0 * 16777216 + b1 * 65536 + b2 * 256 + b3
          decide (0 < possibleLength) && decide (possibleLength ≤ (rest.length + 4) - 4)
        else true
    | _ => false

/-- On byte values, the C expression `(a << 8) | b` equals `a * 256 + b`. -/
theorem shiftOrBytes16_eq (a b : Nat) (hb : b < 256) : a <<< 8 ||| b = a * 256 + b := by
  calc a <<< 8 ||| b = 2 ^ 8 * a ||| b := by rw [Nat.shiftLeft_eq, Nat.mul_comm]
    _ = 2 ^ 8 * a + b := (Nat.mul_add_lt_is_or hb a).symm
    _ = a * 256 + b := by ring

/-- On byte values, the C expression `(b0 << 24) | (b1 << 16) | (b2 << 8) | b3`
equals the additive big-endian recombination used in the definitions. -/
theorem shiftOrBytes_eq (b0 b1 b2 b3 : Nat) (h1 : b1 < 256) (h2 : b2 < 256) (h3 : b3 < 256) :
    b0 <<< 24 ||| b1 <<< 16 ||| b2 <<< 8 ||| b3 =
      b0 * 16777216 + b1 * 65536 + b2 * 256 + b3 := by
  have e1 : b2 <<< 8 ||| b3 = b2 * 256 + b3 := shiftOrBytes16_eq b2 b3 h3
  have hb1 : b2 * 256 + b3 < 2 ^ 16 := by omega
  have e2 : b1 <<< 16 ||| (b2 * 256 + b3) = b1 * 65536 + (b2 * 256 + b3) := by
    calc b1 <<< 16 ||| (b2 * 256 + b3) = 2 ^ 16 * b1 ||| (b2 * 256 + b3) := by
          rw [Nat.shiftLeft_eq, Nat.mul_comm]
      _ = 2 ^ 16 * b1 + (b2 * 256 + b3) := (Nat.mul_add_lt_is_or hb1 b1).symm
      _ = b1 * 65536 + (b2 * 256 + b3) := by ring
  have hb2 : b1 * 65536 + (b2 * 256 + b3) < 2 ^ 24 := by omega
  have e3 : b0 <<< 24 ||| (b1 * 65536 + (b2 * 256 + b3)) =
      b0 * 16777216 + (b1 * 65536 + (b2 * 256 + b3)) := by
    calc b0 <<< 24 ||| (b1 * 65536 + (b2 * 256 + b3)) =
          2 ^ 24 * b0 ||| (b1 * 65536 + (b2 * 256 + b3)) := by
            rw [Nat.shiftLeft_eq, Nat.mul_comm]
      _ = 2 ^ 24 * b0 + (b1 * 65536 + (b2 * 256 + b3)) := (Nat.mul_add_lt_is_or hb2 b0).symm
      _ = b0 * 16777216 + (b1 * 65536 + (b2 * 256 + b3)) := by ring
  calc b0 <<< 24 ||| b1 <<< 16 ||| b2 <<< 8 ||| b3
      = b0 <<< 24 ||| (b1 <<< 16 ||| (b2 <<< 8 ||| b3)) := by
        rw [Nat.lor_assoc, Nat.lor_assoc]
    _ = b0 * 16777216 + (b1 * 65536 + (b2 * 256 + b3)) := by rw [e1, e2, e3]
    _ = b0 * 16777216 + b1 * 65536 + b2 * 256 + b3 := by ring

/-- Outcome of one `IMFTransform::ProcessInput` call. -/
inductive PIResult where
  | ok
  | notAccepting
  | otherError
deriving DecidableEq

/-- One encoded output sample (`VideoEncoder::Sample`): byte data, presentation
time in microseconds, and the `BufferFlags` bit set
(`BUFFER_FLAG_KEY_FRAME = 1`, `BUFFER_FLAG_CODEC_CONFIG = 2`). -/
structure EncSample where
  data : List Nat
  presentationTime : Int
  bufferFlags : Nat
deriving DecidableEq

/-- `VideoEncoder::Sample::isConfiguration`. -/
def isConfigSample (x : EncSample) : Bool := x.bufferFlags &&& 2 != 0

/-- `VideoEncoder::Sample::isKeyFrame`. -/
def isKeyFrameSample (x : EncSample) : Bool := x.bufferFlags &&& 1 != 0

/-- The default-constructed invalid `Sample()`: empty data, `int64` minimum
presentation time, no flags. -/
def invalidSample : EncSample := ⟨[], -9223372036854775808, 0⟩

/-- One `ProcessOutput` outcome of the encoder transform.  An `output` event
carries the sample time, the clean-point (key frame) attribute, the
`MF_MT_MPEG_SEQUENCE_HEADER` blob the current output type would deliver at
that moment (`none` when unavailable), and the encoded payload bytes (empty
when the output buffer cannot be read or has zero length). -/
inductive EncOutputEvent where
  | needMoreInput
  | streamChange (providesSamples : Bool) (bufferSize : Nat)
  | procError
  | output (time : Int) (cleanPoint : Bool) (sequenceHeader : Option (List Nat)) (data : List Nat)
deriving DecidableEq

/-- The encoder-session fields updated inside `drainOutputSamples`. -/
structure DrainAcc where
  codecConfigEmitted : Bool
  mftProvidesOutputSamples : Bool
  outputBufferSize : Nat
deriving DecidableEq

/-- Result of the drain loop: updated fields, samples newly pushed to the
queue (in push order), unconsumed transform events, the number of payload
samples collected (the C return value), and the number of `ProcessOutput`
calls made. -/
structure DrainResult where
  acc : DrainAcc
  out : List EncSample
  remaining : List EncOutputEvent
  collected : Nat
  calls : Nat
deriving DecidableEq

/-- The loop of `VideoEncoder::drainOutputSamples` (`VideoEncoder.cpp` lines
556-722).  Need-more-input and any other error terminate the loop; a stream
change re-negotiates the output type and re-probes the buffer mode and size,
then continues; an output sample first emits the codec-configuration blob as
a `BUFFER_FLAG_CODEC_CONFIG` sample if the unit is a clean point and the blob
was never emitted before, then the payload as a regular (optionally
key-frame-flagged) sample.  An exhausted event list stands for a transform
with nothing more to report (need-more-input). -/
def drainLoop : List EncOutputEvent → DrainAcc → DrainResult
  | [], a => ⟨a, [], [], 0, 1⟩
  | .needMoreInput :: rest, a => ⟨a, [], rest, 0, 1⟩
  | .procError :: rest, a => ⟨a, [], rest, 0, 1⟩
  | .streamChange p sz :: rest, a =>
    let r := drainLoop rest ⟨a.codecConfigEmitted, p, sz⟩
    ⟨r.acc, r.out, r.remaining, r.collected, r.calls + 1⟩
  | .output t kf blob data :: rest, a =>
    let cfgSamples : List EncSample :=
      if kf && !a.codecConfigEmitted then
        match blob with
        | some cfg => if cfg.isEmpty then [] else [⟨cfg, t, 2⟩]
        | none => []
      else []
    let flagAfter := a.codecConfigEmitted || !cfgSamples.isEmpty
    let payloadSamples : List EncSample :=
      if data.isEmpty then [] else [⟨data, t, if kf then 1 else 0⟩]
    let r := drainLoop rest ⟨flagAfter, a.mftProvidesOutputSamples, a.outputBufferSize⟩
    ⟨r.acc, cfgSamples ++ payloadSamples ++ r.out, r.remaining,
      r.collected + (if data.isEmpty then 0 else 1), r.calls + 1⟩

/-- The encoder session state (`VideoEncoder` data members, with the
transform's future `ProcessOutput` outcomes as `events`). -/
structure EncState where
  valid : Bool
  isStarted : Bool
  width : Nat
  height : Nat
  mftProvidesOutputSamples : Bool
  outputBufferSize : Nat
  codecConfigEmitted : Bool
  encodedSamples : List EncSample
  events : List EncOutputEvent
deriving DecidableEq

/-- `VideoEncoder::drainOutputSamples` acting on the session state; returns
the updated state and the number of samples collected. -/
def drainOutputSamples (s : EncState) : EncState × Nat :=
  let r := drainLoop s.events ⟨s.codecConfigEmitted, s.mftProvidesOutputSamples, s.outputBufferSize⟩
  ({ s with
      codecConfigEmitted := r.acc.codecConfigEmitted,
      mftProvidesOutputSamples := r.acc.mftProvidesOutputSamples,
      outputBufferSize := r.acc.outputBufferSize,
      encodedSamples := s.encodedSamples ++ r.out,
      events := r.remaining }, r.collected)

/-- Control messages sent to the transform via `ProcessMessage`. -/
inductive MFTMessage where
  | commandFlush
  | beginStreaming
  | startOfStream
  | commandDrain
  | endOfStream
  | endStreaming
deriving DecidableEq

/-- One call into the transform, for recording interaction traces. -/
inductive MFTCall where
  | message (m : MFTMessage)
  | processOutput
deriving DecidableEq

/-- `VideoEncoder::start` (lines 270-307): fails when not initialized,
succeeds without side effects when already started, otherwise sends flush,
begin-streaming and start-of-stream (the begin/start notifications may be
rejected, which fails the call and leaves the state unchanged). -/
def startEncoder (s : EncState) (beginOk startOk : Bool) : Bool × EncState :=
  if !s.valid then (false, s)
  else if s.isStarted then (true, s)
  else if !beginOk then (false, s)
  else if !startOk then (false, s)
  else (true, { s with isStarted := true })

/-- `VideoEncoder::stop` (lines 309-327): a no-op returning true when not
initialized or not started; otherwise sends the drain command, collects all
currently available outputs into the queue, then sends the end-of-stream and
end-streaming notifications and clears the started flag.  The third component
records the transform interaction trace. -/
def stopEncoder (s : EncState) : Bool × EncState × List MFTCall :=
  if !s.valid || !s.isStarted then (true, s, [])
  else
    let r := drainLoop s.events ⟨s.codecConfigEmitted, s.mftProvidesOutputSamples, s.outputBufferSize⟩
    (true,
      { s with
          codecConfigEmitted := r.acc.codecConfigEmitted,
          mftProvidesOutputSamples := r.acc.mftProvidesOutputSamples,
          outputBufferSize := r.acc.outputBufferSize,
          encodedSamples := s.encodedSamples ++ r.out,
          events := r.remaining,
          isStarted := false },
      MFTCall.message .commandDrain ::
        (List.replicate r.calls MFTCall.processOutput ++
          [MFTCall.message .endOfStream, MFTCall.message .endStreaming]))

/-- `VideoEncoder::pushFrame` (lines 329-497).  `frameValid` models
`frame.isValid()`, `fw`/`fh` the frame dimensions, `convertOk` the outcome of
the external pixel-format conversion, `pi1` the first `ProcessInput` outcome
and `pi2` the outcome of the retry performed after an implicit drain when the
first submission reports `MF_E_NOTACCEPTING`.  After a successful submission
the available outputs are drained into the queue. -/
def pushFrame (s : EncState) (frameValid : Bool) (fw fh : Nat) (convertOk : Bool)
    (pi1 pi2 : PIResult) : Bool × EncState :=
  if !frameValid then (false, s)
  else if !s.valid then (false, s)
  else if !s.isStarted then (false, s)
  else if fw != s.width || fh != s.height then (false, s)
  else if !convertOk then (false, s)
  else
    match pi1 with
    | .notAccepting =>
      let s1 := (drainOutputSamples s).1
      match pi2 with
      | .ok => (true, (drainOutputSamples s1).1)
      | _ => (false, s1)
    | .ok => (true, (drainOutputSamples s).1)
    | .otherError => (false, s)

/-- `VideoEncoder::popSample` (lines 499-525): pop the oldest queued sample if
any; otherwise, when initialized and started, drain once and pop if that
produced something; else return the invalid sample. -/
def popSample (s : EncState) : EncState × EncSample :=
  match s.encodedSamples with
  | x :: rest => ({ s with encodedSamples := rest }, x)
  | [] =>
    if !s.valid || !s.isStarted then (s, invalidSample)
    else
      let s1 := (drainOutputSamples s).1
      match s1.encodedSamples with
      | x :: rest => ({ s1 with encodedSamples := rest }, x)
      | [] => (s1, invalidSample)

/-- `VideoEncoder::release` (lines 527-554): stops if needed, releases the
transform, clears the queue and resets every field (including
`codecConfigEmitted_`) to its default. -/
def releaseEncoder (_s : EncState) : EncState :=
  ⟨false, false, 0, 0, false, 0, false, [], []⟩

/-- One `ProcessOutput` outcome of the decoder transform; `output` carries an
abstract identifier of the decoded picture. -/
inductive DecOutputEvent where
  | needMoreInput
  | streamChange (providesSamples : Bool) (bufferSize : Nat)
  | procError
  | output (frame : Nat)
deriving DecidableEq

/-- The decoder session state (`VideoDecoder` data members, with the
transform's future `ProcessOutput` outcomes as `events`). -/
structure DecState where
  valid : Bool
  isStarted : Bool
  width : Nat
  height : Nat
  mftProvidesOutputSamples : Bool
  outputBufferSize : Nat
  events : List DecOutputEvent
deriving DecidableEq

/-- The caller-provided output-buffer decision of `VideoDecoder::popFrame`
(`VideoDecoder.cpp` lines 413-438): when the transform provides its own
output samples no buffer is created; otherwise the buffer size is
`outputBufferSize_`, or `width_ * height_ * 3 / 2` (32-bit arithmetic) when
that is zero. -/
def popFrameCallerBufferSize (s : DecState) : Option Nat :=
  if s.mftProvidesOutputSamples then none
  else some (if s.outputBufferSize = 0 then s.width * s.height * 3 % 4294967296 / 2
             else s.outputBufferSize)

/-- `VideoDecoder::popFrame` (lines 397-616), abstracted to the event level:
requires an initialized decoder; consumes one `ProcessOutput` outcome;
need-more-input, errors and stream changes yield the invalid frame (a stream
change also re-negotiates the output type and re-probes the buffer mode and
size); an output event yields the decoded frame. -/
def popFrame (s : DecState) : DecState × Option Nat :=
  if !s.valid then (s, none)
  else
    match s.events with
    | [] => (s, none)
    | .needMoreInput :: rest => ({ s with events := rest }, none)
    | .streamChange p sz :: rest =>
      ({ s with events := rest, mftProvidesOutputSamples := p, outputBufferSize := sz }, none)
    | .procError :: rest => ({ s with events := rest }, none)
    | .output f :: rest => ({ s with events := rest }, some f)

/-- `VideoDecoder::stop` (lines 308-325): a no-op returning true when not
initialized or not started; otherwise sends the drain command and the
end-of-stream/end-streaming notifications — without retrieving any output —
and clears the started flag.  The third component records the transform
interaction trace. -/
def stopDecoder (s : DecState) : Bool × DecState × List MFTCall :=
  if !s.valid || !s.isStarted then (true, s, [])
  else (true, { s with isStarted := false },
    [MFTCall.message .commandDrain, MFTCall.message .endOfStream,
      MFTCall.message .endStreaming])

/-- `VideoDecoder::pushSample` (lines 327-395).  `dataValid` models a non-null
data pointer, `size` the sample size; `pis` is the oracle of `ProcessInput`
outcomes, of which the decoder consumes only the first — `MF_E_NOTACCEPTING`
and any other failure simply fail the call, with no retry and no state
change. -/
def pushSample (s : DecState) (dataValid : Bool) (size : Nat) (pis : List PIResult) :
    Bool × DecState :=
  if !dataValid || size == 0 then (false, s)
  else if !s.valid then (false, s)
  else if !s.isStarted then (false, s)
  else
    match pis.headD .otherError with
    | .ok => (true, s)
    | .notAccepting => (false, s)
    | .otherError => (false, s)

/-- `VideoDecoder::release` (lines 632-656): stops if needed, releases the
transform and resets every field to its default. -/
def releaseDecoder (_s : DecState) : DecState :=
  ⟨false, false, 0, 0, false, 0, []⟩

/-- The Media Foundation video format selected for a MIME type
(`mimeToVideoFormat`, identical in encoder and decoder). -/
inductive VideoFormat where
  | h264
  | hevc
deriving DecidableEq

/-- `VideoEncoder::mimeToVideoFormat` / `VideoDecoder::mimeToVideoFormat`;
`none` models `GUID_NULL`. -/
def mimeToVideoFormat (mime : String) : Option VideoFormat :=
  if mime = "video/avc" ∨ mime = "video/h264" then some .h264
  else if mime = "video/hevc" ∨ mime = "video/h265" then some .hevc
  else none

/-- The GOP size computed by `VideoEncoder::initialize` from `iFrameInterval`
(`VideoEncoder.cpp` lines 204-225): negative means `UINT32_MAX`, zero means 1,
positive N means `UINT32(double(N) * frameRate + 0.5)` bumped to at least 1.
The `double` arithmetic is modelled as exact rational arithmetic. -/
def gopSizeForIFrameInterval (iFrameInterval : Int) (frameRate : ℚ) : Nat :=
  if iFrameInterval < 0 then 4294967295
  else if iFrameInterval = 0 then 1
  else
    let gopSize := (⌊(iFrameInterval : ℚ) * frameRate + 1 / 2⌋).toNat
    if gopSize = 0 then 1 else gopSize

/-- Modelled from the claim: negative → maximal GOP size, zero → every frame a
key frame, positive N → `round (N * frameRate)` with a minimum of 1. -/
def c8ClaimGopSize (iFrameInterval : Int) (frameRate : ℚ) : Nat :=
  if iFrameInterval < 0 then 4294967295
  else if iFrameInterval = 0 then 1
  else max (round ((iFrameInterval : ℚ) * frameRate)).toNat 1

/-- Platform outcomes consumed by `VideoEncoder::initialize`: whether
`MFStartup` succeeds, whether some enumerated candidate accepts both media
types, whether the transform exposes `ICodecAPI`, whether the GOP-size
`SetValue` call succeeds, and the output-stream-info probe results. -/
structure EncInitEnv where
  mfStartupOk : Bool
  encoderCreated : Bool
  codecApiAvailable : Bool
  setGopOk : Bool
  streamInfoOk : Bool
  providesSamples : Bool
  bufferSize : Nat
deriving DecidableEq

/-- `VideoEncoder::initialize` (lines 34-268): parameter validation in source
order (dimensions against the 15360x8640 maxima, bitrate against the
100 Mbps maximum, positive frame rate, non-empty MIME), re-initialization
guard, `MFStartup`, MIME-to-format translation, candidate negotiation, the
GOP-size configuration (whose `SetValue` failure is only logged), the
output-stream-info probe, and the final field updates. -/
def initializeEncoder (s : EncState) (w h : Nat) (mime : String) (frameRate : ℚ)
    (bitrate : Nat) (iFrameInterval : Int) (env : EncInitEnv) : Bool × EncState :=
  if w = 0 ∨ h = 0 ∨ w > 15360 ∨ h > 8640 then (false, s)
  else if bitrate = 0 ∨ bitrate > 100000000 then (false, s)
  else if frameRate ≤ 0 then (false, s)
  else if mime = "" then (false, s)
  else if s.valid then (false, s)
  else if !env.mfStartupOk then (false, s)
  else if (mimeToVideoFormat mime).isNone then (false, s)
  else if !env.encoderCreated then (false, s)
  else
    let gopConfigured : Option Nat :=
      if env.codecApiAvailable then some (gopSizeForIFrameInterval iFrameInterval frameRate)
      else none
    let s1 :=
      { s with
          valid := true,
          width := w,
          height := h,
          mftProvidesOutputSamples :=
            if env.streamInfoOk then env.providesSamples else s.mftProvidesOutputSamples,
          outputBufferSize :=
            if env.streamInfoOk then env.bufferSize else s.outputBufferSize }
    match gopConfigured with
    | _ => (true, s1)

/-- Number of configuration-only samples in a queue. -/
def countConfigSamples (l : List EncSample) : Nat :=
  (l.filter (fun x => isConfigSample x)).length

/-- Every configuration sample in the list is immediately followed by a
key-frame sample. -/
def configsPrecedeKeyframes : List EncSample → Bool
  | [] => true
  | [x] => !isConfigSample x
  | x :: y :: rest =>
    (!isConfigSample x || isKeyFrameSample y) && configsPrecedeKeyframes (y :: rest)

/-- An event whose output payload is non-empty (vacuously true for the other
event kinds). -/
def nonEmptyOutputData : EncOutputEvent → Bool
  | .output _ _ _ data => !data.isEmpty
  | _ => true

/-- A sequence of drain passes within one transform lifetime: before each
pass the transform's pending outputs are replaced by the next event list
(modelling outputs that became available from submitted input), then
`drainOutputSamples` runs. -/
def runDrains : List (List EncOutputEvent) → EncState → EncState
  | [], s => s
  | evs :: rest, s => runDrains rest (drainOutputSamples { s with events := evs }).1

/-- Modelled from the claim: the caller-supplied output buffer of `popFrame`
sized to the bigger of the transform's declared output size and the computed
worst case from the current dimensions. -/
def c3ClaimBufferSize (providesSamples : Bool) (declaredSize w h : Nat) : Option Nat :=
  if providesSamples then none else some (max declaredSize (w * h * 3 / 2))

/-- The amended description: the declared output size when non-zero, else the
computed worst case. -/
def c3AmendedBufferSize (providesSamples : Bool) (declaredSize w h : Nat) : Option Nat :=
  if providesSamples then none
  else some (if declaredSize = 0 then w * h * 3 / 2 else declaredSize)

theorem startsWithStartCode_append_code (b : Nat) (rest tail : List Nat)
    (h : startsWithStartCode (b :: rest) = false) :
    startsWithStartCode (b :: (rest ++ 0 :: 0 :: 0 :: 1 :: tail)) = false := by
  match rest with
  | [] => simp [startsWithStartCode]
  | [r0] => simp [startsWithStartCode]
  | [r0, r1] => simp [startsWithStartCode]
  | r0 :: r1 :: r2 :: rrest => simpa [startsWithStartCode] using h

theorem scanUnits_no_code (p : List Nat) (hp : hasStartCode p = false) :
    ∀ cur acc, scanUnits p cur acc = acc ++ [cur ++ p] := by
  induction p with
  | nil =>
    intro cur acc
    rw [scanUnits]
    simp [startsWithStartCode]
  | cons b rest ih =>
    intro cur acc
    have hs : startsWithStartCode (b :: rest) = false ∧ hasStartCode rest = false := by
      simpa [hasStartCode] using hp
    rw [scanUnits]
    simp only [hs.1, Bool.false_eq_true, dite_false]
    rw [ih hs.2]
    simp

theorem scanUnits_split (p : List Nat) (hp : hasStartCode p = false) :
    ∀ cur acc tail, scanUnits (p ++ 0 :: 0 :: 0 :: 1 :: tail) cur acc =
      scanUnits tail [] (acc ++ [cur ++ p]) := by
  induction p with
  | nil =>
    intro cur acc tail
    rw [scanUnits]
    simp [startsWithStartCode]
  | cons b rest ih =>
    intro cur acc tail
    have hs : startsWithStartCode (b :: rest) = false ∧ hasStartCode rest = false := by
      simpa [hasStartCode] using hp
    rw [show (b :: rest) ++ 0 :: 0 :: 0 :: 1 :: tail =
        b :: (rest ++ 0 :: 0 :: 0 :: 1 :: tail) from rfl]
    rw [scanUnits]
    simp only [startsWithStartCode_append_code b rest tail hs.1,
      Bool.false_eq_true, dite_false]
    rw [ih hs.2]
    simp

theorem scanUnits_encode (ps : List (List Nat)) (hps : ∀ p ∈ ps, hasStartCode p = false) :
    ∀ p cur acc, hasStartCode p = false →
      scanUnits (p ++ annexBEncode ps) cur acc = acc ++ ((cur ++ p) :: ps) := by
  induction ps with
  | nil =>
    intro p cur acc hp
    rw [annexBEncode]
    rw [List.append_nil]
    rw [scanUnits_no_code p hp]
  | cons q ps' ih =>
    intro p cur acc hp
    have hq : hasStartCode q = false := hps q (by simp)
    have hps' : ∀ r ∈ ps', hasStartCode r = false := fun r hr => hps r (by simp [hr])
    rw [annexBEncode]
    rw [show p ++ 0 :: 0 :: 0 :: 1 :: (q ++ annexBEncode ps') =
        p ++ (0 :: 0 :: 0 :: 1 :: (q ++ annexBEncode ps')) from rfl]
    rw [scanUnits_split p hp cur acc (q ++ annexBEncode ps')]
    rw [ih hps' q [] (acc ++ [cur ++ p]) hq]
    simp

theorem be32_readback (n : Nat) (h : n < 4294967296) :
    n / 16777216 % 256 * 16777216 + n / 65536 % 256 * 65536 + n / 256 % 256 * 256 + n % 256
      = n := by
  omega

theorem convertLoop_encode (ps : List (List Nat))
    (hps : ∀ p ∈ ps, p ≠ [] ∧ p.length < 4294967296) :
    ∀ acc, convertLoop (avccEncode ps) acc = acc ++ annexBEncode ps := by
  induction ps with
  | nil =>
    intro acc
    rw [avccEncode, annexBEncode, convertLoop] <;> simp
  | cons p ps' ih =>
    intro acc
    have hp : p ≠ [] ∧ p.length < 4294967296 := hps p (by simp)
    have hps' : ∀ q ∈ ps', q ≠ [] ∧ q.length < 4294967296 := fun q hq => hps q (by simp [hq])
    have hlen : p.length ≠ 0 := fun hc => hp.1 (List.length_eq_zero.mp hc)
    rw [avccEncode, be32]
    rw [show ([p.length / 16777216 % 256, p.length / 65536 % 256, p.length / 256 % 256,
        p.length % 256] ++ p ++ avccEncode ps') =
        p.length / 16777216 % 256 :: p.length / 65536 % 256 :: p.length / 256 % 256 ::
          p.length % 256 :: (p ++ avccEncode ps') by simp]
    rw [convertLoop]
    rw [be32_readback p.length hp.2]
    rw [if_neg (by
      push_neg
      constructor
      · exact hlen
      · simp)]
    rw [List.take_left, List.drop_left]
    rw [ih hps' (acc ++ (0 :: 0 :: 0 :: 1 :: p))]
    rw [annexBEncode]
    simp

theorem avccParse_encode (ps : List (List Nat))
    (hps : ∀ p ∈ ps, p ≠ [] ∧ p.length < 4294967296) :
    avccParse (avccEncode ps) = ps := by
  induction ps with
  | nil => rw [avccEncode, avccParse] <;> simp
  | cons p ps' ih =>
    have hp : p ≠ [] ∧ p.length < 4294967296 := hps p (by simp)
    have hps' : ∀ q ∈ ps', q ≠ [] ∧ q.length < 4294967296 := fun q hq => hps q (by simp [hq])
    have hlen : p.length ≠ 0 := fun hc => hp.1 (List.length_eq_zero.mp hc)
    rw [avccEncode, be32]
    rw [show ([p.length / 16777216 % 256, p.length / 65536 % 256, p.length / 256 % 256,
        p.length % 256] ++ p ++ avccEncode ps') =
        p.length / 16777216 % 256 :: p.length / 65536 % 256 :: p.length / 256 % 256 ::
          p.length % 256 :: (p ++ avccEncode ps') by simp]
    rw [avccParse]
    rw [be32_readback p.length hp.2]
    rw [if_neg (by
      push_neg
      constructor
      · exact hlen
      · simp)]
    rw [List.take_left, List.drop_left]
    rw [ih hps']

/-- C5 (counterexample): the round trip as claimed fails for the well-formed
AVCC buffer `[0,0,0,4, 0,0,0,1]` (one NAL unit of length 4 whose payload is
the start-code byte pattern itself): direct AVCC-length parsing yields the
single payload `[0,0,0,1]`, but re-scanning the conversion output
`[0,0,0,1,0,0,0,1]` for 4-byte start codes yields two empty payloads — not
the same sequence or count. -/
theorem c5_counterexample :
    (convertAvccToAnnexB (some [0, 0, 0, 4, 0, 0, 0, 1]) false "video/avc" []).1 = true ∧
    avccParse [0, 0, 0, 4, 0, 0, 0, 1] = [[0, 0, 0, 1]] ∧
    scanUnitsTop (convertAvccToAnnexB (some [0, 0, 0, 4, 0, 0, 0, 1]) false "video/avc" []).2
      = [[], []] ∧
    scanUnitsTop (convertAvccToAnnexB (some [0, 0, 0, 4, 0, 0, 0, 1]) false "video/avc" []).2
      ≠ avccParse [0, 0, 0, 4, 0, 0, 0, 1] := by
  refine ⟨by simp [convertAvccToAnnexB, convertLoop], by simp [avccParse], ?_, ?_⟩
  · simp [convertAvccToAnnexB, convertLoop, scanUnitsTop, scanUnits, startsWithStartCode]
  · simp [convertAvccToAnnexB, convertLoop, scanUnitsTop, scanUnits, startsWithStartCode,
      avccParse]

/-- C5 (amended): for every well-formed AVCC buffer — a concatenation of
4-byte big-endian length prefixes, each positive (and necessarily below
2^32), followed by that many payload bytes — **whose payloads do not contain
the 4-byte start-code pattern**, `convertAvccToAnnexB` with
`isCodecConfig = false` succeeds, its output is the Annex-B rendering of the
same payloads, and re-scanning that output for 4-byte start codes recovers
exactly the payload sequence obtained by direct AVCC-length parsing of the
source. -/
theorem c5_roundtrip (ps : List (List Nat)) (hne : ps ≠ [])
    (hps : ∀ p ∈ ps, p ≠ [] ∧ p.length < 4294967296 ∧ hasStartCode p = false) :
    (convertAvccToAnnexB (some (avccEncode ps)) false "video/avc" []).1 = true ∧
    (convertAvccToAnnexB (some (avccEncode ps)) false "video/avc" []).2 = annexBEncode ps ∧
    scanUnitsTop (convertAvccToAnnexB (some (avccEncode ps)) false "video/avc" []).2 = ps ∧
    avccParse (avccEncode ps) = ps := by
  match ps, hne with
  | p :: ps', _ =>
    have h1 : ∀ q ∈ p :: ps', q ≠ [] ∧ q.length < 4294967296 := by
      intro q hq
      exact ⟨(hps q hq).1, (hps q hq).2.1⟩
    have hcode' : ∀ q ∈ ps', hasStartCode q = false := by
      intro q hq
      exact (hps q (by simp [hq])).2.2
    have hpcode : hasStartCode p = false := (hps p (by simp)).2.2
    have hconv : convertLoop (avccEncode (p :: ps')) [] = annexBEncode (p :: ps') := by
      simpa using convertLoop_encode (p :: ps') h1 []
    have hlen4 : ¬ (avccEncode (p :: ps')).length < 4 := by
      rw [avccEncode, be32]
      simp
    have hpair : convertAvccToAnnexB (some (avccEncode (p :: ps'))) false "video/avc" [] =
        (!(annexBEncode (p :: ps')).isEmpty, annexBEncode (p :: ps')) := by
      simp only [convertAvccToAnnexB, hconv]
      rw [if_neg hlen4]
      simp
    refine ⟨?_, ?_, ?_, avccParse_encode (p :: ps') h1⟩
    · rw [hpair, annexBEncode]
      simp
    · rw [hpair]
    · rw [hpair]
      show scanUnitsTop (annexBEncode (p :: ps')) = p :: ps'
      rw [annexBEncode, scanUnitsTop]
      rw [if_pos (by simp [startsWithStartCode])]
      rw [show List.drop 4 (0 :: 0 :: 0 :: 1 :: (p ++ annexBEncode ps')) =
          p ++ annexBEncode ps' from rfl]
      rw [scanUnits_encode ps' hcode' p [] [] hpcode]
      simp

theorem c5_roundtrip_witness :
    ([[42]] : List (List Nat)) ≠ [] ∧
    (∀ p ∈ ([[42]] : List (List Nat)), p ≠ [] ∧ p.length < 4294967296 ∧
      hasStartCode p = false) ∧
    ((convertAvccToAnnexB (some (avccEncode [[42]])) false "video/avc" []).1 = true ∧
      (convertAvccToAnnexB (some (avccEncode [[42]])) false "video/avc" []).2
        = annexBEncode [[42]] ∧
      scanUnitsTop (convertAvccToAnnexB (some (avccEncode [[42]])) false "video/avc" []).2
        = [[42]] ∧
      avccParse (avccEncode [[42]]) = [[42]]) :=
  ⟨by decide, by decide, c5_roundtrip [[42]] (by decide) (by decide)⟩

theorem convertLoop_ne_nil_head (b0 b1 b2 b3 : Nat) (rest : List Nat)
    (h : convertLoop (b0 :: b1 :: b2 :: b3 :: rest) [] ≠ []) :
    0 < b0 * 16777216 + b1 * 65536 + b2 * 256 + b3 ∧
      b0 * 16777216 + b1 * 65536 + b2 * 256 + b3 ≤ rest.length := by
  by_contra hc
  rw [convertLoop] at h
  rw [if_pos (by omega)] at h
  exact h rfl

/-- C1 (counterexample): both directions of the claimed consistency fail.
`[0,0,0,1,170]` is converted successfully to a non-empty result (it parses as
one length-1 NAL unit), yet `isAvcc` classifies it as Annex B (false); and
the hand-built Annex-B buffer `00 00 01 00` followed by 256 payload bytes
(3-byte start code delimiting one NAL unit) is classified as AVCC (true),
because the heuristic length `0x000100 = 256` fits within `size - 4`. -/
theorem c1_counterexample :
    (convertAvccToAnnexB (some [0, 0, 0, 1, 170]) false "video/avc" []).1 = true ∧
    (convertAvccToAnnexB (some [0, 0, 0, 1, 170]) false "video/avc" []).2 ≠ [] ∧
    isAvcc (some [0, 0, 0, 1, 170]) false = false ∧
    isAvcc (some (0 :: 0 :: 1 :: 0 :: List.replicate 256 2)) false = true := by
  refine ⟨by simp [convertAvccToAnnexB, convertLoop],
    by simp [convertAvccToAnnexB, convertLoop], by decide, ?_⟩
  norm_num [isAvcc]

/-- C1 (amended): format detection is consistent with conversion except on
start-code prefixes.  For every buffer of size at least 4 that does not begin
with the 4-byte start code 00 00 00 01, a successful non-empty
`convertAvccToAnnexB` (with `isCodecConfig = false`) implies
`isAvcc = true`; every buffer beginning with the 4-byte start code yields
`isAvcc = false`; and a buffer beginning with the 3-byte start code 00 00 01
yields `isAvcc = false` (only) when its heuristic length `256 + b3` exceeds
`size - 4`. -/
theorem c1_amended :
    (∀ (b0 b1 b2 b3 : Nat) (rest : List Nat) (mime : String),
        ¬(b0 = 0 ∧ b1 = 0 ∧ b2 = 0 ∧ b3 = 1) →
        (convertAvccToAnnexB (some (b0 :: b1 :: b2 :: b3 :: rest)) false mime []).1 = true →
        isAvcc (some (b0 :: b1 :: b2 :: b3 :: rest)) false = true) ∧
    (∀ rest : List Nat, isAvcc (some (0 :: 0 :: 0 :: 1 :: rest)) false = false) ∧
    (∀ (b3 : Nat) (rest : List Nat), rest.length < 256 + b3 →
        isAvcc (some (0 :: 0 :: 1 :: b3 :: rest)) false = false) := by
  refine ⟨?_, ?_, ?_⟩
  · intro b0 b1 b2 b3 rest mime hpre hconv
    have hlen : ¬ (b0 :: b1 :: b2 :: b3 :: rest).length < 4 := by simp
    have hne : convertLoop (b0 :: b1 :: b2 :: b3 :: rest) [] ≠ [] := by
      simp only [convertAvccToAnnexB] at hconv
      rw [if_neg hlen] at hconv
      simpa using hconv
    have hcond := convertLoop_ne_nil_head b0 b1 b2 b3 rest hne
    have h4 : (b0 == 0 && b1 == 0 && b2 == 0 && b3 == 1) = false := by
      cases h : (b0 == 0 && b1 == 0 && b2 == 0 && b3 == 1) with
      | false => rfl
      | true =>
        simp only [Bool.and_eq_true, beq_iff_eq] at h
        exact absurd ⟨h.1.1.1, h.1.1.2, h.1.2, h.2⟩ hpre
    simp only [isAvcc, h4, Bool.false_eq_true, if_false]
    cases h3 : (b0 == 0 && b1 == 0 && b2 == 1) with
    | false => simp [h3]
    | true =>
      simp only [h3, if_true]
      simp only [Bool.and_eq_true, decide_eq_true_eq]
      omega
  · intro rest
    rfl
  · intro b3 rest h
    simp only [isAvcc]
    norm_num
    omega

theorem c1_amended_witness :
    ¬((0 : Nat) = 0 ∧ (0 : Nat) = 0 ∧ (0 : Nat) = 0 ∧ (2 : Nat) = 1) ∧
    (convertAvccToAnnexB (some [0, 0, 0, 2, 7, 8]) false "video/avc" []).1 = true ∧
    isAvcc (some [0, 0, 0, 2, 7, 8]) false = true :=
  ⟨by decide, by simp [convertAvccToAnnexB, convertLoop],
    c1_amended.1 0 0 0 2 [7, 8] "video/avc" (by decide)
      (by simp [convertAvccToAnnexB, convertLoop])⟩

/-- C6: `isAvcc` on regular samples (`isCodecConfig = false`, size ≥ 4):
false for every buffer beginning 00 00 00 01; for every buffer beginning
00 00 01 it interprets the first four bytes as the big-endian length
`256 + b3` and returns true iff that length is positive and at most
`size - 4`; every other leading pattern yields true — in particular
`isAvcc [0x00, 0x00, 0x02, 0x10]` with size 4 is true. -/
theorem c6_regular_detection :
    (∀ (b0 b1 b2 b3 : Nat) (rest : List Nat),
        b0 = 0 ∧ b1 = 0 ∧ b2 = 0 ∧ b3 = 1 →
        isAvcc (some (b0 :: b1 :: b2 :: b3 :: rest)) false = false) ∧
    (∀ (b3 : Nat) (rest : List Nat),
        isAvcc (some (0 :: 0 :: 1 :: b3 :: rest)) false = true ↔
          0 < 256 + b3 ∧ 256 + b3 ≤ (rest.length + 4) - 4) ∧
    (∀ (b0 b1 b2 b3 : Nat) (rest : List Nat),
        ¬(b0 = 0 ∧ b1 = 0 ∧ b2 = 0 ∧ b3 = 1) → ¬(b0 = 0 ∧ b1 = 0 ∧ b2 = 1) →
        isAvcc (some (b0 :: b1 :: b2 :: b3 :: rest)) false = true) ∧
    isAvcc (some [0, 0, 2, 16]) false = true := by
  refine ⟨?_, ?_, ?_, by decide⟩
  · intro b0 b1 b2 b3 rest h
    obtain ⟨rfl, rfl, rfl, rfl⟩ := h
    rfl
  · intro b3 rest
    simp only [isAvcc]
    norm_num
  · intro b0 b1 b2 b3 rest h4 h3
    have e4 : (b0 == 0 && b1 == 0 && b2 == 0 && b3 == 1) = false := by
      cases h : (b0 == 0 && b1 == 0 && b2 == 0 && b3 == 1) with
      | false => rfl
      | true =>
        simp only [Bool.and_eq_true, beq_iff_eq] at h
        exact absurd ⟨h.1.1.1, h.1.1.2, h.1.2, h.2⟩ h4
    have e3 : (b0 == 0 && b1 == 0 && b2 == 1) = false := by
      cases h : (b0 == 0 && b1 == 0 && b2 == 1) with
      | false => rfl
      | true =>
        simp only [Bool.and_eq_true, beq_iff_eq] at h
        exact absurd ⟨h.1.1, h.1.2, h.2⟩ h3
    simp [isAvcc, e4, e3]

theorem c6_regular_detection_witness :
    isAvcc (some [0, 0, 0, 1, 5]) false = false ∧
    isAvcc (some [1, 2, 3, 4]) false = true :=
  ⟨c6_regular_detection.1 0 0 0 1 [5] ⟨rfl, rfl, rfl, rfl⟩,
    c6_regular_detection.2.2.1 1 2 3 4 [] (by simp) (by simp)⟩

/-- C10: a null data pointer or a size below 4 makes both `isAvcc` and
`convertAvccToAnnexB` return false for every `isCodecConfig` and `mime`, and
on those inputs `convertAvccToAnnexB` leaves the caller's output vector
untouched (it is cleared and written only after the size check passes). -/
theorem c10_null_or_small (cfg : Bool) (mime : String) (prev : List Nat) (d : List Nat)
    (hlen : d.length < 4) :
    isAvcc (some d) cfg = false ∧ isAvcc none cfg = false ∧
    convertAvccToAnnexB (some d) cfg mime prev = (false, prev) ∧
    convertAvccToAnnexB none cfg mime prev = (false, prev) := by
  refine ⟨?_, rfl, ?_, rfl⟩
  · match d, hlen with
    | [], _ => rfl
    | [a], _ => rfl
    | [a, b], _ => rfl
    | [a, b, c], _ => rfl
    | a :: b :: c :: e :: r, hx => exact absurd hx (by simp)
  · simp only [convertAvccToAnnexB]
    rw [if_pos hlen]

theorem c10_null_or_small_witness :
    ([1, 2, 3] : List Nat).length < 4 ∧
    (isAvcc (some [1, 2, 3]) true = false ∧ isAvcc none true = false ∧
      convertAvccToAnnexB (some [1, 2, 3]) true "video/avc" [9] = (false, [9]) ∧
      convertAvccToAnnexB none true "video/avc" [9] = (false, [9])) :=
  ⟨by decide, c10_null_or_small true "video/avc" [9] [1, 2, 3] (by decide)⟩

/-- C3 (counterexample): with the transform not providing its own buffers,
a declared output size of 1 and 64x64 dimensions, `popFrame` allocates a
1-byte caller buffer, not the bigger of the two sizes (`max 1 6144 = 6144`). -/
theorem c3_counterexample :
    popFrameCallerBufferSize ⟨true, true, 64, 64, false, 1, []⟩ = some 1 ∧
    c3ClaimBufferSize false 1 64 64 = some 6144 ∧
    popFrameCallerBufferSize ⟨true, true, 64, 64, false, 1, []⟩ ≠
      c3ClaimBufferSize false 1 64 64 := by
  decide

/-- C3 (amended): when the transform provisions its own output buffers no
caller-supplied buffer is created; otherwise the buffer is sized to the
transform's declared output size when that is non-zero, and to the computed
worst case `width * height * 3 / 2` only when the declared size is zero. -/
theorem c3_amended (s : DecState) (hfit : s.width * s.height * 3 < 4294967296) :
    popFrameCallerBufferSize s =
      c3AmendedBufferSize s.mftProvidesOutputSamples s.outputBufferSize s.width s.height := by
  unfold popFrameCallerBufferSize c3AmendedBufferSize
  rw [Nat.mod_eq_of_lt hfit]

theorem c3_amended_witness :
    (64 * 64 * 3 : Nat) < 4294967296 ∧
    popFrameCallerBufferSize ⟨true, true, 64, 64, false, 0, []⟩ =
      c3AmendedBufferSize false 0 64 64 :=
  ⟨by decide, c3_amended ⟨true, true, 64, 64, false, 0, []⟩ (by decide)⟩

/-- C8: the encoder's `initialize` maps `iFrameInterval` to the GOP size as
the claim states — negative gives the maximal GOP size `UINT32_MAX` (only the
first frame is a key frame), zero gives GOP size 1 (every frame a key frame),
and a positive `N` gives `round (N * frameRate)` with a minimum of 1 — and
the success of `initialize` never depends on whether applying the GOP
configuration (`ICodecAPI::SetValue`) succeeds; in particular a concrete
fully-negotiated initialization with a failing `SetValue` still returns true. -/
theorem c8_gop_mapping :
    (∀ (iFrameInterval : Int) (frameRate : ℚ),
        gopSizeForIFrameInterval iFrameInterval frameRate =
          c8ClaimGopSize iFrameInterval frameRate) ∧
    (∀ (s : EncState) (w h : Nat) (mime : String) (frameRate : ℚ) (bitrate : Nat)
        (iFrameInterval : Int) (env : EncInitEnv) (v : Bool),
        initializeEncoder s w h mime frameRate bitrate iFrameInterval
            { env with setGopOk := v } =
          initializeEncoder s w h mime frameRate bitrate iFrameInterval env) ∧
    (initializeEncoder ⟨false, false, 0, 0, false, 0, false, [], []⟩ 64 64 "video/avc"
        30 1000000 1 ⟨true, true, true, false, true, false, 0⟩).1 = true := by
  refine ⟨?_, ?_, by decide⟩
  · intro N fr
    unfold gopSizeForIFrameInterval c8ClaimGopSize
    split
    · rfl
    split
    · rfl
    rw [round_eq]
    rcases Nat.eq_zero_or_pos (⌊(N : ℚ) * fr + 1 / 2⌋).toNat with h0 | h0
    · rw [h0, if_pos rfl]
      omega
    · rw [if_neg (by omega)]
      omega
  · intro s w h mime frameRate bitrate iFrameInterval env v
    cases env
    rfl

/-- C9: `pushSample` (decoder) and `pushFrame` (encoder) fail and leave the
session unchanged whenever called with no valid transform (before a
successful `initialize`, or after `release`) or while not started, and can
return true only while the session is both initialized and started. -/
theorem c9_push_requires_started :
    (∀ (s : DecState) (dv : Bool) (n : Nat) (pis : List PIResult),
        s.valid = false ∨ s.isStarted = false → pushSample s dv n pis = (false, s)) ∧
    (∀ (s : DecState) (dv : Bool) (n : Nat) (pis : List PIResult),
        pushSample (releaseDecoder s) dv n pis = (false, releaseDecoder s)) ∧
    (∀ (s : DecState) (dv : Bool) (n : Nat) (pis : List PIResult),
        (pushSample s dv n pis).1 = true → s.valid = true ∧ s.isStarted = true) ∧
    (∀ (s : EncState) (fv : Bool) (fw fh : Nat) (cv : Bool) (p1 p2 : PIResult),
        s.valid = false ∨ s.isStarted = false → pushFrame s fv fw fh cv p1 p2 = (false, s)) ∧
    (∀ (s : EncState) (fv : Bool) (fw fh : Nat) (cv : Bool) (p1 p2 : PIResult),
        pushFrame (releaseEncoder s) fv fw fh cv p1 p2 = (false, releaseEncoder s)) ∧
    (∀ (s : EncState) (fv : Bool) (fw fh : Nat) (cv : Bool) (p1 p2 : PIResult),
        (pushFrame s fv fw fh cv p1 p2).1 = true → s.valid = true ∧ s.isStarted = true) := by
  have hdec : ∀ (s : DecState) (dv : Bool) (n : Nat) (pis : List PIResult),
      s.valid = false ∨ s.isStarted = false → pushSample s dv n pis = (false, s) := by
    intro s dv n pis h
    unfold pushSample
    rcases h with h | h <;> simp [h]
  have henc : ∀ (s : EncState) (fv : Bool) (fw fh : Nat) (cv : Bool) (p1 p2 : PIResult),
      s.valid = false ∨ s.isStarted = false → pushFrame s fv fw fh cv p1 p2 = (false, s) := by
    intro s fv fw fh cv p1 p2 h
    unfold pushFrame
    rcases h with h | h <;>
      simp only [h, Bool.not_false, if_true] <;>
      split_ifs <;> rfl
  refine ⟨hdec, ?_, ?_, henc, ?_, ?_⟩
  · intro s dv n pis
    exact hdec (releaseDecoder s) dv n pis (Or.inl rfl)
  · intro s dv n pis h
    cases hv : s.valid with
    | false =>
      rw [hdec s dv n pis (Or.inl hv)] at h
      exact absurd h (by simp)
    | true =>
      cases hs : s.isStarted with
      | false =>
        rw [hdec s dv n pis (Or.inr hs)] at h
        exact absurd h (by simp)
      | true => exact ⟨rfl, rfl⟩
  · intro s fv fw fh cv p1 p2
    exact henc (releaseEncoder s) fv fw fh cv p1 p2 (Or.inl rfl)
  · intro s fv fw fh cv p1 p2 h
    cases hv : s.valid with
    | false =>
      rw [henc s fv fw fh cv p1 p2 (Or.inl hv)] at h
      exact absurd h (by simp)
    | true =>
      cases hs : s.isStarted with
      | false =>
        rw [henc s fv fw fh cv p1 p2 (Or.inr hs)] at h
        exact absurd h (by simp)
      | true => exact ⟨rfl, rfl⟩

theorem c9_push_requires_started_witness :
    ((⟨true, false, 64, 64, false, 0, []⟩ : DecState).valid = false ∨
      (⟨true, false, 64, 64, false, 0, []⟩ : DecState).isStarted = false) ∧
    pushSample ⟨true, false, 64, 64, false, 0, []⟩ true 5 [PIResult.ok] =
      (false, ⟨true, false, 64, 64, false, 0, []⟩) ∧
    pushFrame (releaseEncoder ⟨true, true, 64, 64, false, 0, false, [], []⟩) true 64 64 true
        PIResult.ok PIResult.ok =
      (false, releaseEncoder ⟨true, true, 64, 64, false, 0, false, [], []⟩) :=
  ⟨Or.inr rfl,
    c9_push_requires_started.1 ⟨true, false, 64, 64, false, 0, []⟩ true 5 [PIResult.ok]
      (Or.inr rfl),
    c9_push_requires_started.2.2.2.2.1 ⟨true, true, 64, 64, false, 0, false, [], []⟩
      true 64 64 true PIResult.ok PIResult.ok⟩

/-- C7: on transform backpressure (`MF_E_NOTACCEPTING`), the decoder's
`pushSample` returns false without consulting any further `ProcessInput`
outcome (no internal retry) and without modifying the session state; the
encoder's `pushFrame` drains the currently available outputs once and retries
the submission exactly once, succeeding iff the retry succeeds (and draining
again after a successful retry); any other submission error makes `pushFrame`
return false without a retry and without touching the session state. -/
theorem c7_backpressure :
    (∀ (s : DecState) (dv : Bool) (n : Nat) (rest : List PIResult),
        pushSample s dv n (PIResult.notAccepting :: rest) = (false, s)) ∧
    (∀ (s : EncState) (p2 : PIResult), s.valid = true → s.isStarted = true →
        pushFrame s true s.width s.height true PIResult.notAccepting p2 =
          (if p2 = PIResult.ok then (true, (drainOutputSamples (drainOutputSamples s).1).1)
           else (false, (drainOutputSamples s).1))) ∧
    (∀ (s : EncState) (fv : Bool) (fw fh : Nat) (cv : Bool) (p2 : PIResult),
        pushFrame s fv fw fh cv PIResult.otherError p2 = (false, s)) := by
  refine ⟨?_, ?_, ?_⟩
  · intro s dv n rest
    unfold pushSample
    split_ifs <;> rfl
  · intro s p2 hv hs
    unfold pushFrame
    simp only [hv, hs, Bool.not_true, Bool.not_false, if_true, if_false, bne_self_eq_false,
      Bool.or_self, Bool.false_or]
    cases p2 <;> simp
  · intro s fv fw fh cv p2
    unfold pushFrame
    split_ifs <;> rfl

theorem c7_backpressure_witness :
    ((⟨true, true, 64, 64, false, 0, false, [], []⟩ : EncState).valid = true ∧
      (⟨true, true, 64, 64, false, 0, false, [], []⟩ : EncState).isStarted = true) ∧
    pushFrame ⟨true, true, 64, 64, false, 0, false, [], []⟩ true 64 64 true
        PIResult.notAccepting PIResult.otherError =
      (false, (drainOutputSamples ⟨true, true, 64, 64, false, 0, false, [], []⟩).1) := by
  refine ⟨⟨rfl, rfl⟩, ?_⟩
  have h := c7_backpressure.2.1 ⟨true, true, 64, 64, false, 0, false, [], []⟩
    PIResult.otherError rfl rfl
  simpa using h

/-- C4 (counterexample): the decoder's `stop` does not collect any output.
On a started decoder whose transform holds one buffered frame, `stop` sends
only the drain and end-of-stream/end-streaming messages — its interaction
trace contains no `ProcessOutput` call — and the buffered frame is still
pending in the transform afterwards, contradicting the claim that for both
sessions `stop` collects all remaining outputs before the end-of-stream
notifications. -/
theorem c4_counterexample :
    (stopDecoder ⟨true, true, 64, 64, false, 0, [DecOutputEvent.output 7]⟩).2.2 =
      [MFTCall.message .commandDrain, MFTCall.message .endOfStream,
        MFTCall.message .endStreaming] ∧
    (stopDecoder ⟨true, true, 64, 64, false, 0, [DecOutputEvent.output 7]⟩).2.2.count
        MFTCall.processOutput = 0 ∧
    (stopDecoder ⟨true, true, 64, 64, false, 0, [DecOutputEvent.output 7]⟩).2.1.events =
      [DecOutputEvent.output 7] := by
  decide

/-- C4 (amended): the encoder's `stop` issues the drain command, then collects
all currently available outputs into its sample queue, then issues the
end-of-stream/end-streaming notifications, so `popSample` directly after
`stop` still yields every sample that was buffered in the transform; the
decoder's `stop` issues drain and the end notifications without collecting
anything, but leaves the transform's buffered frames pending, and `popFrame`
(callable once initialized, started or not) still yields them; both `stop`
calls always return true and leave the session not started. -/
theorem c4_stop_drains :
    (∀ s : EncState, s.valid = true → s.isStarted = true →
        (stopEncoder s).1 = true ∧
        (stopEncoder s).2.1.isStarted = false ∧
        (stopEncoder s).2.1.encodedSamples =
          s.encodedSamples ++ (drainLoop s.events
            ⟨s.codecConfigEmitted, s.mftProvidesOutputSamples, s.outputBufferSize⟩).out ∧
        (stopEncoder s).2.2 =
          MFTCall.message .commandDrain ::
            (List.replicate (drainLoop s.events
                ⟨s.codecConfigEmitted, s.mftProvidesOutputSamples, s.outputBufferSize⟩).calls
              MFTCall.processOutput ++
              [MFTCall.message .endOfStream, MFTCall.message .endStreaming])) ∧
    (∀ (s : EncState) (x : EncSample) (rest : List EncSample),
        (stopEncoder s).2.1.encodedSamples = x :: rest →
        popSample (stopEncoder s).2.1 =
          ({ (stopEncoder s).2.1 with encodedSamples := rest }, x)) ∧
    (∀ s : DecState, s.valid = true → s.isStarted = true →
        stopDecoder s = (true, { s with isStarted := false },
          [MFTCall.message .commandDrain, MFTCall.message .endOfStream,
            MFTCall.message .endStreaming]) ∧
        (∀ (f : Nat) (evrest : List DecOutputEvent),
            s.events = DecOutputEvent.output f :: evrest →
            (popFrame (stopDecoder s).2.1).2 = some f)) ∧
    (∀ s : EncState, (stopEncoder s).1 = true) ∧
    (∀ s : DecState, (stopDecoder s).1 = true) := by
  have hpop : ∀ (t : EncState) (x : EncSample) (rest : List EncSample),
      t.encodedSamples = x :: rest →
      popSample t = ({ t with encodedSamples := rest }, x) := by
    intro t x rest hq
    unfold popSample
    rw [hq]
  refine ⟨?_, ?_, ?_, ?_, ?_⟩
  · intro s hv hs
    have hguard : (!s.valid || !s.isStarted) = false := by simp [hv, hs]
    unfold stopEncoder
    simp [hguard]
  · intro s x rest hq
    exact hpop _ x rest hq
  · intro s hv hs
    have hguard : (!s.valid || !s.isStarted) = false := by simp [hv, hs]
    constructor
    · unfold stopDecoder
      simp only [hguard, Bool.false_eq_true, if_false]
    · intro f evrest hev
      have h1 : (stopDecoder s).2.1 = { s with isStarted := false } := by
        unfold stopDecoder
        simp only [hguard, Bool.false_eq_true, if_false]
      rw [h1]
      unfold popFrame
      simp only [show ({ s with isStarted := false } : DecState).valid = s.valid from rfl, hv,
        Bool.not_true, Bool.false_eq_true, if_false]
      rw [show ({ s with isStarted := false } : DecState).events = s.events from rfl, hev]
  · intro s
    unfold stopEncoder
    split_ifs <;> rfl
  · intro s
    unfold stopDecoder
    split_ifs <;> rfl

theorem c4_stop_drains_witness :
    ((⟨true, true, 64, 64, false, 0, false, [],
        [EncOutputEvent.output 3 true none [7], EncOutputEvent.needMoreInput]⟩ :
          EncState).valid = true) ∧
    ((⟨true, true, 64, 64, false, 0, false, [],
        [EncOutputEvent.output 3 true none [7], EncOutputEvent.needMoreInput]⟩ :
          EncState).isStarted = true) ∧
    ((stopEncoder ⟨true, true, 64, 64, false, 0, false, [],
        [EncOutputEvent.output 3 true none [7], EncOutputEvent.needMoreInput]⟩).1 = true ∧
      (stopEncoder ⟨true, true, 64, 64, false, 0, false, [],
        [EncOutputEvent.output 3 true none [7], EncOutputEvent.needMoreInput]⟩).2.1.isStarted
        = false ∧
      (stopEncoder ⟨true, true, 64, 64, false, 0, false, [],
        [EncOutputEvent.output 3 true none [7], EncOutputEvent.needMoreInput]⟩).2.1.encodedSamples
        = [] ++ (drainLoop [EncOutputEvent.output 3 true none [7], EncOutputEvent.needMoreInput]
            ⟨false, false, 0⟩).out ∧
      (stopEncoder ⟨true, true, 64, 64, false, 0, false, [],
        [EncOutputEvent.output 3 true none [7], EncOutputEvent.needMoreInput]⟩).2.2
        = MFTCall.message .commandDrain ::
            (List.replicate (drainLoop
                [EncOutputEvent.output 3 true none [7], EncOutputEvent.needMoreInput]
                ⟨false, false, 0⟩).calls MFTCall.processOutput ++
              [MFTCall.message .endOfStream, MFTCall.message .endStreaming])) :=
  ⟨rfl, rfl,
    c4_stop_drains.1 ⟨true, true, 64, 64, false, 0, false, [],
      [EncOutputEvent.output 3 true none [7], EncOutputEvent.needMoreInput]⟩ rfl rfl⟩

theorem countConfig_append (l1 l2 : List EncSample) :
    countConfigSamples (l1 ++ l2) = countConfigSamples l1 + countConfigSamples l2 := by
  simp [countConfigSamples, List.filter_append]

theorem countConfig_payload (t : Int) (kf : Bool) (data : List Nat) :
    countConfigSamples (if data.isEmpty then []
      else [⟨data, t, if kf then 1 else 0⟩]) = 0 := by
  cases data.isEmpty <;> cases kf <;> simp [countConfigSamples, isConfigSample]

theorem drainLoop_flag_mono : ∀ (events : List EncOutputEvent) (a : DrainAcc),
    a.codecConfigEmitted = true → (drainLoop events a).acc.codecConfigEmitted = true := by
  intro events
  induction events with
  | nil => intro a h; simpa [drainLoop] using h
  | cons e rest ih =>
    intro a h
    cases e with
    | needMoreInput => simpa [drainLoop] using h
    | procError => simpa [drainLoop] using h
    | streamChange p sz =>
      simp only [drainLoop]
      exact ih ⟨a.codecConfigEmitted, p, sz⟩ h
    | output t kf blob data =>
      simp only [drainLoop]
      apply ih
      simp [h]

theorem countConfig_nil : countConfigSamples ([] : List EncSample) = 0 := rfl

theorem countConfig_cfg (d : List Nat) (t : Int) :
    countConfigSamples [⟨d, t, 2⟩] = 1 := by
  simp [countConfigSamples, isConfigSample]

theorem countConfig_key (d : List Nat) (t : Int) :
    countConfigSamples [⟨d, t, 1⟩] = 0 := by
  simp [countConfigSamples, isConfigSample]

theorem countConfig_plain (d : List Nat) (t : Int) :
    countConfigSamples [⟨d, t, 0⟩] = 0 := by
  simp [countConfigSamples, isConfigSample]

theorem countConfig_cons_cfg (d : List Nat) (t : Int) (l : List EncSample) :
    countConfigSamples (⟨d, t, 2⟩ :: l) = 1 + countConfigSamples l := by
  simp [countConfigSamples, isConfigSample, List.filter_cons, Nat.add_comm]

theorem countConfig_cons_key (d : List Nat) (t : Int) (l : List EncSample) :
    countConfigSamples (⟨d, t, 1⟩ :: l) = countConfigSamples l := by
  simp [countConfigSamples, isConfigSample, List.filter_cons]

theorem countConfig_cons_plain (d : List Nat) (t : Int) (l : List EncSample) :
    countConfigSamples (⟨d, t, 0⟩ :: l) = countConfigSamples l := by
  simp [countConfigSamples, isConfigSample, List.filter_cons]

theorem drainLoop_config_count : ∀ (events : List EncOutputEvent) (a : DrainAcc),
    countConfigSamples (drainLoop events a).out =
      (if a.codecConfigEmitted then 0
       else if (drainLoop events a).acc.codecConfigEmitted then 1 else 0) := by
  intro events
  induction events with
  | nil =>
    intro a
    cases hc : a.codecConfigEmitted <;> simp [drainLoop, countConfig_nil, hc]
  | cons e rest ih =>
    intro a
    cases e with
    | needMoreInput =>
      cases hc : a.codecConfigEmitted <;> simp [drainLoop, countConfig_nil, hc]
    | procError =>
      cases hc : a.codecConfigEmitted <;> simp [drainLoop, countConfig_nil, hc]
    | streamChange p sz =>
      simp only [drainLoop]
      exact ih ⟨a.codecConfigEmitted, p, sz⟩
    | output t kf blob data =>
      have hmonoT := drainLoop_flag_mono rest
        ⟨true, a.mftProvidesOutputSamples, a.outputBufferSize⟩ rfl
      rcases blob with _ | cfg
      · cases hflag : a.codecConfigEmitted <;>
          cases hkf : kf <;>
            cases hde : data.isEmpty <;>
              simp [drainLoop, hflag, hkf, hde, countConfig_append, countConfig_nil,
                countConfig_cfg, countConfig_key, countConfig_plain, countConfig_cons_cfg,
                countConfig_cons_key, countConfig_cons_plain, ih, hmonoT]
      · cases hemp : cfg.isEmpty <;>
          cases hflag : a.codecConfigEmitted <;>
            cases hkf : kf <;>
              cases hde : data.isEmpty <;>
                simp [drainLoop, hflag, hkf, hde, hemp, countConfig_append, countConfig_nil,
                  countConfig_cfg, countConfig_key, countConfig_plain, countConfig_cons_cfg,
                  countConfig_cons_key, countConfig_cons_plain, ih, hmonoT]

theorem configsPrecedeKeyframes_append (l1 l2 : List EncSample)
    (h1 : configsPrecedeKeyframes l1 = true) (h2 : configsPrecedeKeyframes l2 = true) :
    configsPrecedeKeyframes (l1 ++ l2) = true := by
  induction l1 with
  | nil => simpa using h2
  | cons x rest ih =>
    cases rest with
    | nil =>
      cases l2 with
      | nil => simpa using h1
      | cons z t =>
        rw [configsPrecedeKeyframes] at h1
        rw [List.singleton_append, configsPrecedeKeyframes]
        simp only [Bool.and_eq_true]
        exact ⟨by simp [h1], h2⟩
    | cons y tl =>
      rw [configsPrecedeKeyframes] at h1
      simp only [Bool.and_eq_true] at h1
      rw [List.cons_append, List.cons_append, configsPrecedeKeyframes]
      simp only [Bool.and_eq_true]
      refine ⟨h1.1, ?_⟩
      have hrec := ih h1.2
      simpa using hrec

theorem drainLoop_out_precede : ∀ (events : List EncOutputEvent) (a : DrainAcc),
    (∀ e ∈ events, nonEmptyOutputData e = true) →
    configsPrecedeKeyframes (drainLoop events a).out = true := by
  intro events
  induction events with
  | nil => intro a _; simp [drainLoop, configsPrecedeKeyframes]
  | cons e rest ih =>
    intro a hdata
    have hrest : ∀ x ∈ rest, nonEmptyOutputData x = true := fun x hx =>
      hdata x (by simp [hx])
    cases e with
    | needMoreInput => simp [drainLoop, configsPrecedeKeyframes]
    | procError => simp [drainLoop, configsPrecedeKeyframes]
    | streamChange p sz =>
      simp only [drainLoop]
      exact ih ⟨a.codecConfigEmitted, p, sz⟩ hrest
    | output t kf blob data =>
      have hde : data.isEmpty = false := by
        have := hdata (.output t kf blob data) (by simp)
        simpa [nonEmptyOutputData] using this
      rcases blob with _ | cfg
      · cases hflag : a.codecConfigEmitted <;> cases hkf : kf <;>
          simp only [drainLoop, hflag, hkf, hde] <;>
          refine configsPrecedeKeyframes_append _ _ (by simp [configsPrecedeKeyframes,
            isConfigSample, isKeyFrameSample]) (by simpa using ih _ hrest)
      · cases hemp : cfg.isEmpty <;> cases hflag : a.codecConfigEmitted <;> cases hkf : kf <;>
          simp only [drainLoop, hflag, hkf, hde, hemp] <;>
          refine configsPrecedeKeyframes_append _ _ (by simp [configsPrecedeKeyframes,
            isConfigSample, isKeyFrameSample]) (by simpa using ih _ hrest)

theorem runDrains_count : ∀ (eventss : List (List EncOutputEvent)) (s : EncState),
    countConfigSamples (runDrains eventss s).encodedSamples ≤
      countConfigSamples s.encodedSamples + (if s.codecConfigEmitted then 0 else 1) := by
  intro eventss
  induction eventss with
  | nil =>
    intro s
    cases hc : s.codecConfigEmitted <;> simp [runDrains, hc]
  | cons evs rest ih =>
    intro s
    obtain ⟨v, st, w, hgt, mp, ob, cc, enc, ev⟩ := s
    rw [runDrains]
    have hchain := ih (drainOutputSamples ⟨v, st, w, hgt, mp, ob, cc, enc, evs⟩).1
    have henc : (drainOutputSamples ⟨v, st, w, hgt, mp, ob, cc, enc, evs⟩).1.encodedSamples =
        enc ++ (drainLoop evs ⟨cc, mp, ob⟩).out := rfl
    have hfl : (drainOutputSamples ⟨v, st, w, hgt, mp, ob, cc, enc, evs⟩).1.codecConfigEmitted =
        (drainLoop evs ⟨cc, mp, ob⟩).acc.codecConfigEmitted := rfl
    rw [henc, hfl, countConfig_append] at hchain
    have hcount := drainLoop_config_count evs ⟨cc, mp, ob⟩
    show countConfigSamples (runDrains rest
        (drainOutputSamples ⟨v, st, w, hgt, mp, ob, cc, enc, evs⟩).1).encodedSamples ≤
      countConfigSamples enc + (if cc then 0 else 1)
    cases cc with
    | true =>
      have hmono := drainLoop_flag_mono evs ⟨true, mp, ob⟩ rfl
      rw [hmono] at hchain
      simp only [if_true] at hcount
      simp only [hcount, if_true] at hchain
      simpa using hchain
    | false =>
      simp only [Bool.false_eq_true, if_false] at hcount ⊢
      cases hafter : (drainLoop evs ⟨false, mp, ob⟩).acc.codecConfigEmitted with
      | true =>
        rw [hafter] at hchain hcount
        simp only [if_true] at hcount hchain
        omega
      | false =>
        rw [hafter] at hchain hcount
        simp only [Bool.false_eq_true, if_false] at hcount hchain
        omega

theorem runDrains_precede : ∀ (eventss : List (List EncOutputEvent)) (s : EncState),
    configsPrecedeKeyframes s.encodedSamples = true →
    (∀ evs ∈ eventss, ∀ e ∈ evs, nonEmptyOutputData e = true) →
    configsPrecedeKeyframes (runDrains eventss s).encodedSamples = true := by
  intro eventss
  induction eventss with
  | nil => intro s h _; simpa [runDrains] using h
  | cons evs rest ih =>
    intro s h hdata
    rw [runDrains]
    apply ih
    · have henc : (drainOutputSamples { s with events := evs }).1.encodedSamples =
          s.encodedSamples ++ (drainLoop evs
            ⟨s.codecConfigEmitted, s.mftProvidesOutputSamples, s.outputBufferSize⟩).out := rfl
      rw [henc]
      exact configsPrecedeKeyframes_append _ _ h
        (drainLoop_out_precede evs _ (hdata evs (by simp)))
    · intro evs' hevs'
      exact hdata evs' (by simp [hevs'])

/-- C2 (counterexample): `codecConfigEmitted_` is *not* reset on
re-negotiation.  A drain pass that processes a stream-change
(output-format/configuration change) starting with the flag set leaves the
flag set, and a subsequent key frame in the same transform lifetime produces
no new configuration sample — only the key-frame payload is enqueued. -/
theorem c2_counterexample :
    (drainLoop [EncOutputEvent.streamChange true 5]
      ⟨true, false, 0⟩).acc.codecConfigEmitted = true ∧
    (drainLoop [EncOutputEvent.streamChange true 5,
        EncOutputEvent.output 0 true (some [7]) [9]]
      ⟨true, false, 0⟩).out = [⟨[9], 0, 1⟩] := by
  decide

/-- C2 (amended): within one transform lifetime (between `initialize` and
`release`), across an arbitrary sequence of drain passes, at most one
configuration-only (`BUFFER_FLAG_CODEC_CONFIG`) sample is ever enqueued, and
(provided the transform's output payloads are non-empty) every configuration
sample is enqueued immediately before a key-frame sample.  The
`codecConfigEmitted_` flag is never cleared by draining (in particular not by
a stream-change re-negotiation) nor by `start`; it is reset only by
`release`, so no later `start` epoch can emit the blob again. -/
theorem c2_config_blob :
    (∀ (eventss : List (List EncOutputEvent)) (s : EncState),
        s.codecConfigEmitted = false → s.encodedSamples = [] →
        countConfigSamples (runDrains eventss s).encodedSamples ≤ 1) ∧
    (∀ (eventss : List (List EncOutputEvent)) (s : EncState),
        configsPrecedeKeyframes s.encodedSamples = true →
        (∀ evs ∈ eventss, ∀ e ∈ evs, nonEmptyOutputData e = true) →
        configsPrecedeKeyframes (runDrains eventss s).encodedSamples = true) ∧
    (∀ (events : List EncOutputEvent) (a : DrainAcc),
        a.codecConfigEmitted = true → (drainLoop events a).acc.codecConfigEmitted = true) ∧
    (∀ (s : EncState) (beginOk startOk : Bool),
        (startEncoder s beginOk startOk).2.codecConfigEmitted = s.codecConfigEmitted) ∧
    (∀ s : EncState, (releaseEncoder s).codecConfigEmitted = false) := by
  refine ⟨?_, ?_, drainLoop_flag_mono, ?_, fun _ => rfl⟩
  · intro eventss s hflag hq
    have := runDrains_count eventss s
    rw [hflag, hq] at this
    simpa using this
  · intro eventss s hpred hdata
    exact runDrains_precede eventss s hpred hdata
  · intro s beginOk startOk
    unfold startEncoder
    split_ifs <;> rfl

theorem c2_config_blob_witness :
    ((⟨true, true, 64, 64, false, 0, false, [], []⟩ : EncState).codecConfigEmitted = false) ∧
    ((⟨true, true, 64, 64, false, 0, false, [], []⟩ : EncState).encodedSamples = []) ∧
    countConfigSamples (runDrains
      [[EncOutputEvent.output 0 true (some [7]) [9]],
        [EncOutputEvent.output 1 true (some [7]) [8]]]
      ⟨true, true, 64, 64, false, 0, false, [], []⟩).encodedSamples ≤ 1 :=
  ⟨rfl, rfl,
    c2_config_blob.1
      [[EncOutputEvent.output 0 true (some [7]) [9]],
        [EncOutputEvent.output 1 true (some [7]) [8]]]
      ⟨true, true, 64, 64, false, 0, false, [], []⟩ rfl rfl⟩
